import Mathlib

/-!
Verification of the BookMarket information-flow-control prototype.

The repository contains two variants of the same marketplace:
* `bookmarket_platform.py` — decentralized labels (Myers & Liskov owner/reader
  sets) with a `Database` of customers, vendors, books and purchases, and a
  `BookMarketPlatform` with offer/search/purchase handlers;
* `denning_and_denning/bookmarket.py` — linear clearance levels
  (`SecurityLevel`) with `SecureVariable` labeled cells; and
  `denning_and_denning/marketplace.py` — a plain marketplace with an
  offer/search/purchase handler over dictionaries.

Python dictionaries are embedded as insertion-ordered association lists,
Python sets of principals as `Finset ℕ`, raised exceptions as `Except` /
explicit failure constructors, and mutation of `self` as explicit state
passing (each method returns its result paired with the post-state).
-/

/-- Association-list lookup, embedding Python `d[k]` / `k in d`. -/
def alookup {κ β : Type} [DecidableEq κ] (k : κ) : List (κ × β) → Option β
  | [] => none
  | p :: rest => if p.1 = k then some p.2 else alookup k rest

/-- The keys of an association list, embedding Python `d.keys()`. -/
def keysOf {κ β : Type} (l : List (κ × β)) : List κ :=
  l.map (·.1)

/-- Python `d[k] = v`: overwrite in place when the key is present (dict order
is preserved), otherwise append at the end (dicts are insertion-ordered). -/
def assocSet {κ β : Type} [DecidableEq κ] (l : List (κ × β)) (k : κ) (v : β) :
    List (κ × β) :=
  if (alookup k l).isSome then
    l.map (fun p => (p.1, if p.1 = k then v else p.2))
  else
    l ++ [(k, v)]

/-- Python `d[k]["field"] = v`: update the value stored at key `k` in place,
leaving every other binding untouched. -/
def updVal {κ β : Type} [DecidableEq κ] (l : List (κ × β)) (k : κ) (f : β → β) :
    List (κ × β) :=
  l.map (fun p => (p.1, if p.1 = k then f p.2 else p.2))

theorem alookup_append_right {κ β : Type} [DecidableEq κ] (l : List (κ × β))
    (k : κ) (v : β) (h : alookup k l = none) :
    alookup k (l ++ [(k, v)]) = some v := by
  induction l with
  | nil => simp [alookup]
  | cons p rest ih =>
    simp only [alookup] at h ⊢
    by_cases hk : p.1 = k
    · simp [hk] at h
    · simp only [hk, if_false] at h ⊢
      exact ih h

theorem alookup_eq_none_iff {κ β : Type} [DecidableEq κ] (l : List (κ × β))
    (k : κ) : alookup k l = none ↔ k ∉ keysOf l := by
  induction l with
  | nil => simp [alookup, keysOf]
  | cons p rest ih =>
    simp only [alookup, keysOf, List.map_cons, List.mem_cons]
    by_cases hk : p.1 = k
    · simp [hk]
    · simp only [hk, if_false]
      rw [ih]
      simp only [keysOf]
      constructor
      · intro h hmem
        rcases hmem with h1 | h2
        · exact hk h1.symm
        · exact h h2
      · intro h hmem
        exact h (Or.inr hmem)

theorem keysOf_append {κ β : Type} (l₁ l₂ : List (κ × β)) :
    keysOf (l₁ ++ l₂) = keysOf l₁ ++ keysOf l₂ := by
  simp [keysOf]

theorem keysOf_updVal {κ β : Type} [DecidableEq κ] (l : List (κ × β)) (k : κ)
    (f : β → β) : keysOf (updVal l k f) = keysOf l := by
  simp [keysOf, updVal]

theorem alookup_updVal {κ β : Type} [DecidableEq κ] (l : List (κ × β))
    (k k₀ : κ) (f : β → β) :
    alookup k (updVal l k₀ f) =
      (alookup k l).map (fun v => if k = k₀ then f v else v) := by
  induction l with
  | nil => simp [alookup, updVal]
  | cons p rest ih =>
    simp only [updVal, List.map_cons, alookup]
    by_cases hk : p.1 = k
    · subst hk
      simp
    · simp only [hk, if_false]
      exact ih

/-! ## Decentralized label algebra (`bookmarket_platform.py`)

A `Principal` is an opaque identity token compared by name; we embed it as a
natural number.  A `SecurityLabel` carries a set of owners (integrity) and a
set of readers (confidentiality). -/

abbrev Principal := ℕ

structure SecurityLabel where
  owners : Finset Principal
  readers : Finset Principal
  deriving DecidableEq

/-- `SecurityLabel.flows_to`: information can flow from this label to the
target label iff all owners of the target are owners here and all readers
here are readers of the target. -/
def SecurityLabel.flows_to (self label : SecurityLabel) : Bool :=
  decide (label.owners ⊆ self.owners) && decide (self.readers ⊆ label.readers)

/-- `SecurityLabel.join`: least-upper-bound combination — owners intersect,
readers union. -/
def SecurityLabel.join (self label : SecurityLabel) : SecurityLabel :=
  ⟨self.owners ∩ label.owners, self.readers ∪ label.readers⟩

/-- `SecurityLabel.meet`: greatest-lower-bound combination — owners union,
readers intersect. -/
def SecurityLabel.meet (self label : SecurityLabel) : SecurityLabel :=
  ⟨self.owners ∪ label.owners, self.readers ∩ label.readers⟩

/-- `SecurityLabel.declassify`: if the requesting principal is one of the
owners, return a copy of the label whose readers are replaced by
`new_readers` when supplied; otherwise raise `SecurityException`.  The Python
method copies the owner and reader sets, so the original label is untouched;
the embedding is pure, which makes that explicit. -/
def SecurityLabel.declassify (self : SecurityLabel) (auth_principal : Principal)
    (new_readers : Option (Finset Principal) := none) :
    Except String SecurityLabel :=
  if auth_principal ∈ self.owners then
    Except.ok ⟨self.owners, new_readers.getD self.readers⟩
  else
    Except.error "SecurityException: principal not authorized to declassify"

/-! ## Linear clearance levels (`denning_and_denning/bookmarket.py`) -/

namespace SecurityLevel

def PUBLIC : ℕ := 0
def CUSTOMER : ℕ := 1
def VENDOR : ℕ := 2
def PLATFORM : ℕ := 3

/-- `SecurityLevel.can_flow`: information may flow from `source_level` to
`target_level` iff `source_level ≤ target_level`. -/
def can_flow (source_level target_level : ℕ) : Bool :=
  decide (source_level ≤ target_level)

end SecurityLevel

/-- A `SecureVariable` pairs one stored value with its clearance level. -/
structure SecureVariable (α : Type) where
  value : α
  security_level : ℕ
  deriving DecidableEq

/-- `SecureVariable.get_value`: return the stored value when the cell's level
flows to the context, else raise `SecurityException`.  The method never
assigns to `self`, so the post-state is the cell itself on both branches. -/
def SecureVariable.get_value {α : Type} (self : SecureVariable α)
    (context_level : ℕ) : Except String α × SecureVariable α :=
  if SecurityLevel.can_flow self.security_level context_level then
    (Except.ok self.value, self)
  else
    (Except.error "SecurityException: cannot access data in this context", self)

/-- `SecureVariable.set_value`: replace the stored value when both the source
level and the context level flow to the cell's level, else raise
`SecurityException` leaving the cell untouched. -/
def SecureVariable.set_value {α : Type} (self : SecureVariable α)
    (new_value : α) (source_level context_level : ℕ) :
    Except String Unit × SecureVariable α :=
  if SecurityLevel.can_flow source_level self.security_level &&
      SecurityLevel.can_flow context_level self.security_level then
    (Except.ok (), { self with value := new_value })
  else
    (Except.error "SecurityException: cannot assign in this context", self)

/-! ## The decentralized platform (`bookmarket_platform.py`)

`Database` holds customers, vendors, books and purchases.  Book and purchase
keys are integers handed out by the monotone counters `next_book_id` and
`next_purchase_id`; customer and vendor keys are caller-chosen strings. -/

structure CustomerData where
  name : String
  address : String
  email : String
  deriving DecidableEq

structure VendorData where
  name : String
  email : String
  deriving DecidableEq

structure BookData where
  title : String
  author : String
  year : String
  edition : String
  publisher : String
  condition : String
  description : String
  price : ℚ
  vendor_id : String
  deriving DecidableEq

structure PurchaseData where
  book_id : ℕ
  customer_id : String
  vendor_id : String
  price : ℚ
  timestamp : String
  deriving DecidableEq

structure CustomerRecord where
  data : CustomerData
  label : SecurityLabel
  marketing_opt_in : Bool
  deriving DecidableEq

structure VendorRecord where
  data : VendorData
  label : SecurityLabel
  deriving DecidableEq

structure BookRecord where
  data : BookData
  label : SecurityLabel
  status : String
  deriving DecidableEq

structure PurchaseRecord where
  data : PurchaseData
  label : SecurityLabel
  deriving DecidableEq

structure Database where
  customers : List (String × CustomerRecord)
  vendors : List (String × VendorRecord)
  books : List (ℕ × BookRecord)
  purchases : List (ℕ × PurchaseRecord)
  next_book_id : ℕ
  next_purchase_id : ℕ
  deriving DecidableEq

/-- `Database.add_customer`: store a customer record under a caller-chosen id
with `marketing_opt_in` defaulting to false. -/
def Database.add_customer (db : Database) (customer_id : String)
    (customer_data : CustomerData) (label : SecurityLabel) : Database :=
  { db with customers :=
      assocSet db.customers customer_id ⟨customer_data, label, false⟩ }

/-- `Database.add_vendor`: store a vendor record under a caller-chosen id. -/
def Database.add_vendor (db : Database) (vendor_id : String)
    (vendor_data : VendorData) (label : SecurityLabel) : Database :=
  { db with vendors := assocSet db.vendors vendor_id ⟨vendor_data, label⟩ }

/-- `Database.add_book`: allocate `next_book_id` as the new book's key,
advance the counter, store the record with status `available`, and return the
key. -/
def Database.add_book (db : Database) (book_data : BookData)
    (label : SecurityLabel) : ℕ × Database :=
  let book_id := db.next_book_id
  (book_id,
    { db with
        next_book_id := db.next_book_id + 1
        books := assocSet db.books book_id ⟨book_data, label, "available"⟩ })

/-- `Database.add_purchase`: allocate `next_purchase_id` as the new purchase
key, advance the counter, store the record, and return the key. -/
def Database.add_purchase (db : Database) (purchase_data : PurchaseData)
    (label : SecurityLabel) : ℕ × Database :=
  let purchase_id := db.next_purchase_id
  (purchase_id,
    { db with
        next_purchase_id := db.next_purchase_id + 1
        purchases := assocSet db.purchases purchase_id ⟨purchase_data, label⟩ })

/-- The platform object: the database plus the `Marketplace` principal. -/
structure BookMarketPlatform where
  db : Database
  marketplace : Principal
  deriving DecidableEq

/-- Python `list(label.owners)[0]`: pick one element of the owner set (Python
set order is unspecified; we take the least) or fail when the set is empty. -/
def firstOwner (s : Finset Principal) : Option Principal :=
  (s.sort (· ≤ ·)).head?

structure PlatformCustomerConfirmation where
  purchase_id : ℕ
  book_title : String
  price : ℚ
  vendor : String
  status : String
  deriving DecidableEq

structure PlatformVendorConfirmation where
  purchase_id : ℕ
  book_title : String
  price : ℚ
  customer_name : String
  customer_address : String
  status : String
  deriving DecidableEq

/-- The dictionary returned by `handle_purchase`: either a failure message, a
success payload, or an uncaught Python exception (`crash`) when a vendor id
is dangling or an owner set is empty. -/
inductive PlatformPurchaseOutcome where
  | failure (message : String)
  | success (purchase_id : ℕ)
      (customer_confirmation : PlatformCustomerConfirmation)
      (vendor_confirmation : PlatformVendorConfirmation)
  | crash
  deriving DecidableEq

/-- `BookMarketPlatform.handle_purchase`: validate customer existence, book
existence, availability and price (each failure returns its own message and
leaves the state untouched); then mark the book sold, append a purchase
record owned and readable by customer, vendor and marketplace, and return the
two confirmations. -/
def BookMarketPlatform.handle_purchase (self : BookMarketPlatform)
    (customer_id : String) (book_id : ℕ) (offered_price : ℚ) :
    PlatformPurchaseOutcome × BookMarketPlatform :=
  match alookup customer_id self.db.customers with
  | none => (.failure "Customer not found", self)
  | some customer_info =>
    match alookup book_id self.db.books with
    | none => (.failure "Book not found", self)
    | some book_info =>
      if book_info.status ≠ "available" then
        (.failure "Book is not available", self)
      else if book_info.data.price ≠ offered_price then
        (.failure "Price does not match", self)
      else
        match alookup book_info.data.vendor_id self.db.vendors with
        | none => (.crash, self)
        | some vendor_info =>
          match firstOwner customer_info.label.owners,
              firstOwner vendor_info.label.owners with
          | some customer_principal, some vendor_principal =>
            let db1 := { self.db with
              books := updVal self.db.books book_id
                (fun b => { b with status := "sold" }) }
            let purchase_data : PurchaseData :=
              { book_id := book_id
                customer_id := customer_id
                vendor_id := book_info.data.vendor_id
                price := offered_price
                timestamp := "timestamp_placeholder" }
            let purchase_label : SecurityLabel :=
              ⟨{customer_principal, vendor_principal, self.marketplace},
               {customer_principal, vendor_principal, self.marketplace}⟩
            let pr := db1.add_purchase purchase_data purchase_label
            (.success pr.1
              ⟨pr.1, book_info.data.title, offered_price,
                vendor_info.data.name, "Confirmed"⟩
              ⟨pr.1, book_info.data.title, offered_price,
                customer_info.data.name, customer_info.data.address,
                "Confirmed - Please ship to customer"⟩,
              { self with db := pr.2 })
          | _, _ => (.crash, self)

/-! ## The plain marketplace (`denning_and_denning/marketplace.py`) -/

structure MarketCustomer where
  name : String
  address : String
  opt_in_marketing : Bool
  deriving DecidableEq

structure MarketVendor where
  name : String
  deriving DecidableEq

structure Offer where
  title : String
  author : String
  year : ℤ
  edition : String
  publisher : String
  condition : String
  description : String
  price : ℚ
  vendor_id : ℕ
  available : Bool
  deriving DecidableEq

structure MarketPurchase where
  offer_id : ℕ
  customer_id : ℕ
  timestamp : String
  price : ℚ
  deriving DecidableEq

structure BookMarketplaceDB where
  customers : List (ℕ × MarketCustomer)
  vendors : List (ℕ × MarketVendor)
  book_offers : List (ℕ × Offer)
  purchases : List (ℕ × MarketPurchase)
  deriving DecidableEq

structure BookMarketplace where
  db : BookMarketplaceDB
  next_offer_id : ℕ
  next_purchase_id : ℕ
  deriving DecidableEq

/-- The book details supplied to `offer_handler`. -/
structure BookInfo where
  title : String
  author : String
  year : ℤ
  edition : String
  publisher : String
  condition : String
  description : String
  price : ℚ
  deriving DecidableEq

inductive OfferResult where
  | failure (message : String)
  | success (offer_id : ℕ)
  deriving DecidableEq

/-- `BookMarketplace.offer_handler`: reject unknown vendors, otherwise
allocate `next_offer_id` as the offer key, advance the counter, and store the
offer with `available = true`. -/
def BookMarketplace.offer_handler (self : BookMarketplace) (vendor_id : ℕ)
    (book_info : BookInfo) : OfferResult × BookMarketplace :=
  match alookup vendor_id self.db.vendors with
  | none => (.failure "Vendor not found", self)
  | some _ =>
    let offer_id := self.next_offer_id
    (.success offer_id,
      { self with
          next_offer_id := self.next_offer_id + 1
          db := { self.db with
            book_offers := assocSet self.db.book_offers offer_id
              ⟨book_info.title, book_info.author, book_info.year,
               book_info.edition, book_info.publisher, book_info.condition,
               book_info.description, book_info.price, vendor_id, true⟩ } })

structure MarketVendorConfirmation where
  purchase_id : ℕ
  book_title : String
  customer_name : String
  shipping_address : String
  price : ℚ
  deriving DecidableEq

structure MarketCustomerConfirmation where
  purchase_id : ℕ
  book_title : String
  price : ℚ
  deriving DecidableEq

inductive MarketPurchaseResult where
  | failure (message : String)
  | success (purchase_id : ℕ)
      (vendor_confirmation : MarketVendorConfirmation)
      (customer_confirmation : MarketCustomerConfirmation)
  deriving DecidableEq

/-- `BookMarketplace.purchase_handler`: reject an unknown customer; reject an
absent or unavailable offer with the single message
`Book offer not available`; reject a price mismatch; otherwise mark the offer
sold, allocate a purchase id, append the purchase record, and return vendor
and customer confirmations. -/
def BookMarketplace.purchase_handler (self : BookMarketplace)
    (customer_id offer_id : ℕ) (price : ℚ) :
    MarketPurchaseResult × BookMarketplace :=
  match alookup customer_id self.db.customers with
  | none => (.failure "Customer not found", self)
  | some customer =>
    match alookup offer_id self.db.book_offers with
    | none => (.failure "Book offer not available", self)
    | some offer =>
      if offer.available = false then
        (.failure "Book offer not available", self)
      else if offer.price ≠ price then
        (.failure "Price does not match", self)
      else
        let offers1 := updVal self.db.book_offers offer_id
          (fun o => { o with available := false })
        let purchase_id := self.next_purchase_id
        let purchases1 := assocSet self.db.purchases purchase_id
          ⟨offer_id, customer_id, "2025-05-04 12:00:00", price⟩
        (.success purchase_id
          ⟨purchase_id, offer.title, customer.name, customer.address, price⟩
          ⟨purchase_id, offer.title, price⟩,
          { self with
              next_purchase_id := self.next_purchase_id + 1
              db := { self.db with
                book_offers := offers1
                purchases := purchases1 } })

/-! ## Claims about the label algebra and the labeled cell -/

/-- C1 — No read-up: `get_value C` returns the stored value iff the cell's
security level flows to `C` (`security_level ≤ C`), otherwise it fails with a
`SecurityException`; in both outcomes the cell (value and security level) is
unchanged. -/
theorem C1_no_read_up {α : Type} (cell : SecureVariable α) (C : ℕ) :
    ((cell.get_value C).1 = Except.ok cell.value ↔ cell.security_level ≤ C) ∧
    (¬ cell.security_level ≤ C →
      ∃ msg, (cell.get_value C).1 = Except.error msg) ∧
    (cell.get_value C).2 = cell := by
  unfold SecureVariable.get_value SecurityLevel.can_flow
  by_cases h : cell.security_level ≤ C <;> simp [h]

theorem C1_witness :
    (∃ msg, ((SecureVariable.mk (5 : ℕ) 3).get_value 1).1 = Except.error msg) ∧
    ((SecureVariable.mk (5 : ℕ) 3).get_value 1).2 = SecureVariable.mk 5 3 :=
  ⟨(C1_no_read_up (SecureVariable.mk (5 : ℕ) 3) 1).2.1 (by decide),
   (C1_no_read_up (SecureVariable.mk (5 : ℕ) 3) 1).2.2⟩

/-- C2 — Declassification gate contract: `declassify P (some R)` succeeds iff
`P` is a member of the label's owners; on success the result has the same
owners and readers `R`; otherwise it fails.  The source copies the owner and
reader sets before modifying them, so the original label is left unmodified —
in this pure embedding the input label is a value and is unchanged by
construction. -/
theorem C2_declassify_contract (L : SecurityLabel) (P : Principal)
    (R : Finset Principal) :
    ((∃ L2, L.declassify P (some R) = Except.ok L2) ↔ P ∈ L.owners) ∧
    (∀ L2, L.declassify P (some R) = Except.ok L2 →
      L2.owners = L.owners ∧ L2.readers = R) ∧
    (P ∉ L.owners → ∃ msg, L.declassify P (some R) = Except.error msg) := by
  unfold SecurityLabel.declassify
  by_cases h : P ∈ L.owners
  · refine ⟨by simp [h], ?_, by simp [h]⟩
    intro L2 hL2
    rw [if_pos h] at hL2
    cases hL2
    exact ⟨rfl, rfl⟩
  · refine ⟨by simp [h], ?_, fun _ => ⟨_, if_neg h⟩⟩
    intro L2 hL2
    rw [if_neg h] at hL2
    simp at hL2

theorem C2_witness :
    (SecurityLabel.mk {1} {1, 2}).owners = ({1} : Finset Principal) ∧
    (SecurityLabel.mk {1} {1, 2}).readers = ({1, 2} : Finset Principal) :=
  (C2_declassify_contract (SecurityLabel.mk {1} ∅) 1 {1, 2}).2.1
    (SecurityLabel.mk {1} {1, 2}) (by simp [SecurityLabel.declassify])

/-- Principal names used in the spec's declassification scenario. -/
def Customer1 : Principal := 1

def Mediator : Principal := 2

/-- C3 counterexample — the claim says declassification fails unless the FULL
owner set consents; but on the label with owners `{0, 1}` the single
requester `0` succeeds although the full owner set `{0, 1}` is not `{0}`
(owner `1` never consented). -/
theorem C3_counterexample :
    (∃ L2, (SecurityLabel.mk {0, 1} ∅).declassify 0 (some ∅) = Except.ok L2) ∧
    ({0} : Finset Principal) ≠ ({0, 1} : Finset Principal) := by
  constructor
  · exact ⟨SecurityLabel.mk {0, 1} ∅, by simp [SecurityLabel.declassify]⟩
  · decide

/-- C3 amended — declassification fails unless the requesting principal is a
member of the label's owner set (one owner suffices; unanimous consent of all
owners is not required); in particular with owners `{Customer1}` a request by
`Customer1` succeeds, and with owners `{Mediator}` a request by `Customer1`
fails. -/
theorem C3_owner_membership (L : SecurityLabel) (P : Principal)
    (R : Option (Finset Principal)) :
    ((∃ L2, L.declassify P R = Except.ok L2) ↔ P ∈ L.owners) ∧
    (P ∉ L.owners → ∃ msg, L.declassify P R = Except.error msg) ∧
    (∃ L2, (SecurityLabel.mk {Customer1} ∅).declassify Customer1 R =
      Except.ok L2) ∧
    (∃ msg, (SecurityLabel.mk {Mediator} ∅).declassify Customer1 R =
      Except.error msg) := by
  unfold SecurityLabel.declassify
  refine ⟨?_, ?_, ?_, ?_⟩
  · by_cases h : P ∈ L.owners <;> simp [h]
  · intro h; simp [h]
  · simp [Customer1]
  · simp [Customer1, Mediator]

theorem C3_witness :
    ∃ msg, (SecurityLabel.mk {7} ∅).declassify 8 none = Except.error msg :=
  (C3_owner_membership (SecurityLabel.mk {7} ∅) 8 none).2.1 (by decide)

/-- C4 — `flows_to` implements exactly the stated order in both algebras:
decentralized `S.flows_to T` iff `T.owners ⊆ S.owners ∧ S.readers ⊆
T.readers`, and linear `can_flow s t` iff `s ≤ t`. -/
theorem C4_flows_to_exact (S T : SecurityLabel) (s t : ℕ) :
    (S.flows_to T = true ↔ T.owners ⊆ S.owners ∧ S.readers ⊆ T.readers) ∧
    (SecurityLevel.can_flow s t = true ↔ s ≤ t) := by
  constructor <;> simp [SecurityLabel.flows_to, SecurityLevel.can_flow]

/-- C5 — Label combination: `join` has owners intersection and readers union
(so its reader set contains both sides' readers, and `join` is not the
reader-set intersection), and `meet` has owners union and readers
intersection. -/
theorem C5_label_combination (a b : SecurityLabel) :
    (a.join b).owners = a.owners ∩ b.owners ∧
    (a.join b).readers = a.readers ∪ b.readers ∧
    a.readers ⊆ (a.join b).readers ∧
    b.readers ⊆ (a.join b).readers ∧
    (a.meet b).owners = a.owners ∪ b.owners ∧
    (a.meet b).readers = a.readers ∩ b.readers ∧
    (∃ c d : SecurityLabel,
      (SecurityLabel.join c d).readers ≠ c.readers ∩ d.readers) := by
  refine ⟨rfl, rfl, ?_, ?_, rfl, rfl, ?_⟩
  · exact Finset.subset_union_left
  · exact Finset.subset_union_right
  · exact ⟨⟨∅, {0}⟩, ⟨∅, {1}⟩, by decide⟩

/-- C6 — Write contract and frame: `set_value v s c` replaces the stored
value with `v` iff both `can_flow s level` and `can_flow c level` hold; the
cell's security level is unchanged in every case; on failure a
`SecurityException` is raised and the cell is exactly as it was. -/
theorem C6_write_contract {α : Type} (cell : SecureVariable α) (v : α)
    (s c : ℕ) :
    (s ≤ cell.security_level ∧ c ≤ cell.security_level →
      cell.set_value v s c = (Except.ok (), { cell with value := v })) ∧
    (¬ (s ≤ cell.security_level ∧ c ≤ cell.security_level) →
      ∃ msg, cell.set_value v s c = (Except.error msg, cell)) ∧
    (cell.set_value v s c).2.security_level = cell.security_level := by
  unfold SecureVariable.set_value SecurityLevel.can_flow
  by_cases hs : s ≤ cell.security_level <;>
    by_cases hc : c ≤ cell.security_level <;> simp [hs, hc]

theorem C6_witness :
    ∃ msg, (SecureVariable.mk (5 : ℕ) 1).set_value 9 2 0 =
      (Except.error msg, SecureVariable.mk 5 1) :=
  (C6_write_contract (SecureVariable.mk (5 : ℕ) 1) 9 2 0).2.1 (by decide)

/-- C7 — Lattice laws on decentralized labels: `flows_to` is reflexive and
transitive; `join` and `meet` are commutative, associative and idempotent;
`join` is an upper bound and `meet` a lower bound of its arguments. -/
theorem C7_lattice_laws (a b c : SecurityLabel) :
    a.flows_to a = true ∧
    (a.flows_to b = true → b.flows_to c = true → a.flows_to c = true) ∧
    a.join b = b.join a ∧
    a.meet b = b.meet a ∧
    (a.join b).join c = a.join (b.join c) ∧
    (a.meet b).meet c = a.meet (b.meet c) ∧
    a.join a = a ∧
    a.meet a = a ∧
    a.flows_to (a.join b) = true ∧
    b.flows_to (a.join b) = true ∧
    (a.meet b).flows_to a = true ∧
    (a.meet b).flows_to b = true := by
  refine ⟨?_, ?_, ?_, ?_, ?_, ?_, ?_, ?_, ?_, ?_, ?_, ?_⟩
  · simp [SecurityLabel.flows_to]
  · simp only [SecurityLabel.flows_to, Bool.and_eq_true, decide_eq_true_eq]
    rintro ⟨h1, h2⟩ ⟨h3, h4⟩
    exact ⟨h3.trans h1, h2.trans h4⟩
  · simp [SecurityLabel.join, Finset.inter_comm, Finset.union_comm]
  · simp [SecurityLabel.meet, Finset.inter_comm, Finset.union_comm]
  · simp [SecurityLabel.join, Finset.inter_assoc, Finset.union_assoc]
  · simp [SecurityLabel.meet, Finset.inter_assoc, Finset.union_assoc]
  · simp [SecurityLabel.join]
  · simp [SecurityLabel.meet]
  · simp [SecurityLabel.flows_to, SecurityLabel.join,
      Finset.inter_subset_left, Finset.subset_union_left]
  · simp [SecurityLabel.flows_to, SecurityLabel.join,
      Finset.inter_subset_right, Finset.subset_union_right]
  · simp [SecurityLabel.flows_to, SecurityLabel.meet,
      Finset.subset_union_left, Finset.inter_subset_left]
  · simp [SecurityLabel.flows_to, SecurityLabel.meet,
      Finset.subset_union_right, Finset.inter_subset_right]

def Lw1 : SecurityLabel := ⟨{0, 1}, {0}⟩

def Lw2 : SecurityLabel := ⟨{0}, {0, 1}⟩

def Lw3 : SecurityLabel := ⟨{0}, {0, 1, 2}⟩

theorem C7_witness : Lw1.flows_to Lw3 = true :=
  (C7_lattice_laws Lw1 Lw2 Lw3).2.1 (by decide) (by decide)

/-! ## Claims about the stores and handlers -/

theorem assocSet_of_none {κ β : Type} [DecidableEq κ] (l : List (κ × β))
    (k : κ) (v : β) (h : alookup k l = none) :
    assocSet l k v = l ++ [(k, v)] := by
  simp [assocSet, h]

theorem alookup_append_of_some {κ β : Type} [DecidableEq κ]
    (l l2 : List (κ × β)) (k : κ) (r : β) (h : alookup k l = some r) :
    alookup k (l ++ l2) = some r := by
  induction l with
  | nil => simp [alookup] at h
  | cons p rest ih =>
    simp only [alookup, List.cons_append] at h ⊢
    by_cases hk : p.1 = k
    · simpa [hk] using h
    · simp only [hk, if_false] at h ⊢
      exact ih h

/-- Inserting at the current counter value when every existing key is below
the counter: the key is fresh, every key stays below the advanced counter,
and existing bindings are untouched. -/
theorem fresh_insert {β : Type} (l : List (ℕ × β)) (n : ℕ) (v : β)
    (h : ∀ k ∈ keysOf l, k < n) :
    n ∉ keysOf l ∧
    (∀ k ∈ keysOf (assocSet l n v), k < n + 1) ∧
    (∀ k r, alookup k l = some r → alookup k (assocSet l n v) = some r) := by
  have hnot : n ∉ keysOf l := fun hmem => lt_irrefl n (h n hmem)
  have hnone : alookup n l = none := (alookup_eq_none_iff l n).mpr hnot
  have hset : assocSet l n v = l ++ [(n, v)] := assocSet_of_none l n v hnone
  refine ⟨hnot, ?_, ?_⟩
  · intro k hk
    rw [hset, keysOf_append] at hk
    rcases List.mem_append.mp hk with hk | hk
    · exact (h k hk).trans (Nat.lt_succ_self n)
    · simp only [keysOf, List.map_cons, List.map_nil, List.mem_singleton] at hk
      omega
  · intro k r hr
    rw [hset]
    exact alookup_append_of_some l _ k r hr

/-- Concrete platform state used below: one customer `alice`, one book at key
`1` already sold, no book at key `2`. -/
def AliceRecord : CustomerRecord :=
  ⟨⟨"Alice Smith", "123 Main St", "alice at example dot com"⟩,
   ⟨{1}, {1, 0}⟩, false⟩

def SoldBook : BookRecord :=
  ⟨⟨"Intro", "Myers", "2022", "1st", "Press", "new", "desc", 5, "bookstore"⟩,
   ⟨{2}, {2, 0}⟩, "sold"⟩

def P0 : BookMarketPlatform :=
  { db :=
      { customers := [("alice", AliceRecord)]
        vendors := []
        books := [(1, SoldBook)]
        purchases := []
        next_book_id := 2
        next_purchase_id := 1 }
    marketplace := 0 }

/-- C8 counterexample — `BookMarketPlatform.handle_purchase` distinguishes an
absent key from an unavailable record: on `P0` the unknown key `2` fails with
`Book not found` while the sold book at key `1` fails with the different
message `Book is not available`. -/
theorem C8_counterexample :
    (P0.handle_purchase "alice" 2 5).1 =
      PlatformPurchaseOutcome.failure "Book not found" ∧
    (P0.handle_purchase "alice" 1 5).1 =
      PlatformPurchaseOutcome.failure "Book is not available" ∧
    "Book not found" ≠ "Book is not available" := by
  refine ⟨rfl, rfl, by decide⟩

/-- C8 amended — in `BookMarketplace.purchase_handler` an absent offer key
and an existing-but-unavailable offer fail identically (same message
`Book offer not available`, state unchanged); `BookMarketPlatform.handle_purchase`
however distinguishes the two cases with different messages. -/
theorem C8_uniform_not_found (m : BookMarketplace) (customer_id offer_id : ℕ)
    (price : ℚ) (customer : MarketCustomer)
    (hc : alookup customer_id m.db.customers = some customer)
    (h : alookup offer_id m.db.book_offers = none ∨
      ∃ o, alookup offer_id m.db.book_offers = some o ∧ o.available = false) :
    m.purchase_handler customer_id offer_id price =
      (MarketPurchaseResult.failure "Book offer not available", m) := by
  unfold BookMarketplace.purchase_handler
  rcases h with h | ⟨o, ho, hav⟩
  · simp [hc, h]
  · simp [hc, ho, hav]

/-- Concrete marketplace state used below: one customer, one vendor, no
offers. -/
def M0 : BookMarketplace :=
  { db :=
      { customers := [(1, ⟨"Alice Smith", "123 Main St, Copenhagen", true⟩)]
        vendors := [(1, ⟨"Book Haven"⟩)]
        book_offers := []
        purchases := [] }
    next_offer_id := 1
    next_purchase_id := 1 }

theorem C8_witness :
    M0.purchase_handler 1 5 3 =
      (MarketPurchaseResult.failure "Book offer not available", M0) :=
  C8_uniform_not_found M0 1 5 3
    ⟨"Alice Smith", "123 Main St, Copenhagen", true⟩ rfl (Or.inl rfl)

/-- C9 — Key freshness and monotonicity: under the store invariant that every
allocated key is below the counter, `add_book`, `add_purchase` and a
successful `offer_handler` each return a key distinct from every previously
allocated key, strictly advance the counter, and re-establish the invariant;
inserting never disturbs an existing binding, and `purchase_handler` (which
marks a book sold) maps every previously allocated key to the same record up
to its `available` flag — a key is never reassigned to a different record. -/
theorem C9_key_freshness
    (db : Database) (bd : BookData) (lab plab : SecurityLabel)
    (pd : PurchaseData) (m : BookMarketplace) (vid : ℕ) (bi : BookInfo)
    (hb : ∀ k ∈ keysOf db.books, k < db.next_book_id)
    (hp : ∀ k ∈ keysOf db.purchases, k < db.next_purchase_id)
    (hm : ∀ k ∈ keysOf m.db.book_offers, k < m.next_offer_id) :
    ((db.add_book bd lab).1 ∉ keysOf db.books ∧
      db.next_book_id < (db.add_book bd lab).2.next_book_id ∧
      ∀ k ∈ keysOf (db.add_book bd lab).2.books,
        k < (db.add_book bd lab).2.next_book_id) ∧
    ((db.add_purchase pd plab).1 ∉ keysOf db.purchases ∧
      db.next_purchase_id < (db.add_purchase pd plab).2.next_purchase_id ∧
      ∀ k ∈ keysOf (db.add_purchase pd plab).2.purchases,
        k < (db.add_purchase pd plab).2.next_purchase_id) ∧
    (∀ oid m2, m.offer_handler vid bi = (OfferResult.success oid, m2) →
      oid ∉ keysOf m.db.book_offers ∧
      m.next_offer_id < m2.next_offer_id ∧
      ∀ k ∈ keysOf m2.db.book_offers, k < m2.next_offer_id) ∧
    (∀ k r, alookup k db.books = some r →
      alookup k (db.add_book bd lab).2.books = some r) ∧
    (∀ cid oid price k o, alookup k m.db.book_offers = some o →
      ∃ avail,
        alookup k (m.purchase_handler cid oid price).2.db.book_offers =
          some { o with available := avail }) := by
  obtain ⟨hbf, hbk, hbkeep⟩ :=
    fresh_insert db.books db.next_book_id ⟨bd, lab, "available"⟩ hb
  obtain ⟨hpf, hpk, _⟩ :=
    fresh_insert db.purchases db.next_purchase_id ⟨pd, plab⟩ hp
  refine ⟨⟨hbf, Nat.lt_succ_self _, hbk⟩, ⟨hpf, Nat.lt_succ_self _, hpk⟩,
    ?_, hbkeep, ?_⟩
  · intro oid m2 heq
    unfold BookMarketplace.offer_handler at heq
    cases hv : alookup vid m.db.vendors with
    | none =>
      rw [hv] at heq
      simp at heq
    | some w =>
      rw [hv] at heq
      simp only [Prod.mk.injEq, OfferResult.success.injEq] at heq
      obtain ⟨hoid, hm2⟩ := heq
      obtain ⟨hf, hkeys, _⟩ := fresh_insert m.db.book_offers m.next_offer_id
        ⟨bi.title, bi.author, bi.year, bi.edition, bi.publisher, bi.condition,
         bi.description, bi.price, vid, true⟩ hm
      subst hoid
      rw [← hm2]
      exact ⟨hf, Nat.lt_succ_self _, hkeys⟩
  · intro cid oid price k o ho
    unfold BookMarketplace.purchase_handler
    cases hcl : alookup cid m.db.customers with
    | none => exact ⟨o.available, ho⟩
    | some cust =>
      cases hol : alookup oid m.db.book_offers with
      | none => exact ⟨o.available, ho⟩
      | some offer =>
        dsimp only
        by_cases hav : offer.available = false
        · rw [if_pos hav]
          exact ⟨o.available, ho⟩
        · rw [if_neg hav]
          by_cases hpr : offer.price ≠ price
          · rw [if_pos hpr]
            exact ⟨o.available, ho⟩
          · rw [if_neg hpr]
            refine ⟨if k = oid then false else o.available, ?_⟩
            rw [alookup_updVal, ho]
            by_cases hk : k = oid
            · simp [hk]
            · simp only [hk, if_false]
              rfl

def Db0 : Database :=
  { customers := []
    vendors := []
    books := []
    purchases := []
    next_book_id := 1
    next_purchase_id := 1 }

def Bd0 : BookData := ⟨"T", "A", "2020", "1st", "P", "new", "D", 5, "v"⟩

theorem C9_witness :
    (Db0.add_book Bd0 (SecurityLabel.mk ∅ ∅)).1 ∉ keysOf Db0.books :=
  (C9_key_freshness Db0 Bd0 (SecurityLabel.mk ∅ ∅) (SecurityLabel.mk ∅ ∅)
    ⟨1, "c", "v", 5, "t"⟩ M0 1 ⟨"T", "A", 2020, "1st", "P", "new", "D", 5⟩
    (by simp [Db0, keysOf]) (by simp [Db0, keysOf])
    (by simp [M0, keysOf])).1.1

/-- C10 — Purchase failure atomicity: whenever `handle_purchase` (platform)
or `purchase_handler` (marketplace) returns an unsuccessful result (unknown
customer, unknown or unavailable book, price mismatch), the entire store
state is left exactly as it was before the call; all state mutation occurs
only after every validation check has passed. -/
theorem C10_purchase_failure_atomicity
    (p : BookMarketPlatform) (customer_id : String) (book_id : ℕ)
    (offered_price : ℚ) (m : BookMarketplace) (mcid moid : ℕ) (mprice : ℚ) :
    (∀ msg, (p.handle_purchase customer_id book_id offered_price).1 =
        PlatformPurchaseOutcome.failure msg →
      (p.handle_purchase customer_id book_id offered_price).2 = p) ∧
    (∀ msg, (m.purchase_handler mcid moid mprice).1 =
        MarketPurchaseResult.failure msg →
      (m.purchase_handler mcid moid mprice).2 = m) := by
  constructor
  · intro msg hmsg
    unfold BookMarketPlatform.handle_purchase at hmsg ⊢
    cases hcl : alookup customer_id p.db.customers with
    | none => rfl
    | some ci =>
      rw [hcl] at hmsg
      dsimp only at hmsg ⊢
      cases hbl : alookup book_id p.db.books with
      | none => rfl
      | some bi =>
        rw [hbl] at hmsg
        dsimp only at hmsg ⊢
        by_cases hst : bi.status ≠ "available"
        · rw [if_pos hst]
        · rw [if_neg hst] at hmsg ⊢
          by_cases hprice : bi.data.price ≠ offered_price
          · rw [if_pos hprice]
          · rw [if_neg hprice] at hmsg ⊢
            cases hv : alookup bi.data.vendor_id p.db.vendors with
            | none => rfl
            | some vi =>
              rw [hv] at hmsg
              dsimp only at hmsg ⊢
              cases hfo : firstOwner ci.label.owners with
              | none => rfl
              | some cp =>
                rw [hfo] at hmsg
                cases hfv : firstOwner vi.label.owners with
                | none => rfl
                | some vp =>
                  rw [hfv] at hmsg
                  dsimp only at hmsg
                  exact absurd hmsg (by simp)
  · intro msg hmsg
    unfold BookMarketplace.purchase_handler at hmsg ⊢
    cases hcl : alookup mcid m.db.customers with
    | none => rfl
    | some cust =>
      rw [hcl] at hmsg
      dsimp only at hmsg ⊢
      cases hol : alookup moid m.db.book_offers with
      | none => rfl
      | some offer =>
        rw [hol] at hmsg
        dsimp only at hmsg ⊢
        by_cases hav : offer.available = false
        · rw [if_pos hav]
        · rw [if_neg hav] at hmsg ⊢
          by_cases hpr : offer.price ≠ mprice
          · rw [if_pos hpr]
          · rw [if_neg hpr] at hmsg
            dsimp only at hmsg
            exact absurd hmsg (by simp)

theorem C10_witness : (P0.handle_purchase "alice" 2 5).2 = P0 :=
  (C10_purchase_failure_atomicity P0 "alice" 2 5 M0 1 5 3).1
    "Book not found" rfl
